import Mathlib

/-!
Verification development for the `logz` log-aggregation subsystem
(`logz/file.go`) of the `trace` repository.

The Go code is shallowly embedded: the aggregator's mutable fields become an
explicit state record, file-system contents become an association list from
file names to byte strings (bytes are modelled as `Char` lists), and the
`encoding/json` codec, the `regexp` matcher and RFC3339 time parsing — all
library code outside the repository — are parameters of the model.  Fallible
operations return a `× Option Err` pair mirroring Go's `(T, error)` results.

Modelling notes, fixed once here:
  * `bufio.Writer` is modelled as an explicit pending-byte buffer
    (`writerBuf`) that reaches the durable file content exactly at the
    `writer.Flush()` call sites of the source (capacity-triggered partial
    flushes of `bufio` are not modelled; `os.File.Stat().Size()` therefore
    reports the durable length, which agrees with Go whenever fewer than
    4096 bytes are pending).
  * Disk I/O itself never fails in the model (the claims under study concern
    the logic around encoding failures, offsets, rotation and maintenance,
    not kernel-level I/O errors).
  * `time.Time` values are reduced to the three projections the code uses:
    `Day()` (day of month), `Format("2006-01-02")` (the shard date) and a
    linear instant for `ModTime`/`Before` comparisons
    (`time.Now().AddDate(0,0,-7)` is modelled as `unix - 7*86400`).
  * `strings.EqualFold` is modelled as equality of `String.toLower` images
    (exact for the ASCII identifiers the code handles).
  * The `flushedLog` and `currentFileDate` fields are ghost instrumentation:
    no modelled Go function reads them; they record, respectively, the
    records durably appended with their stamps, and the calendar date
    embedded in the current shard id.
-/

namespace Logz

/-- Byte strings (Go `[]byte` of text data) are modelled as lists of
characters. -/
abbrev Bytes := List Char

/-- File names / shard identifiers, as raw character lists so that list
lemmas apply to prefix/suffix pattern matching. -/
abbrev FName := List Char

/-- `LogEntry` (logz/file.go:27-39).  The `Fields` map of arbitrary JSON
values is reduced to string pairs; its contents are never inspected by the
code under study. -/
structure LogEntry where
  timestamp : String := ""
  level     : String := ""
  message   : String := ""
  traceID   : String := ""
  spanID    : String := ""
  caller    : String := ""
  fields    : List (String × String) := []
  service   : String := ""
  file      : String := ""
  fileID    : FName := []
  offset    : Int := 0
deriving Repr, DecidableEq

/-- One file of the output directory: name, durable content, and
modification time. -/
structure FileEntry where
  name    : FName
  content : Bytes
  mtime   : Int
deriving Repr, DecidableEq

/-- The three projections of `time.Now()` that `file.go` uses. -/
structure GoTime where
  day     : Nat
  dateStr : FName
  unix    : Int
deriving Repr, DecidableEq

/-- Error kinds surfaced by the write path (spec §7).  The model produces
only `encodeError`; `writeError` (disk failure) is unreachable because disk
I/O is not modelled as fallible, and no `closed` error exists anywhere in
the source. -/
inductive Err where
  | encodeError
  | writeError
  | closedError
deriving Repr, DecidableEq

/-- Mutable state of `LogAggregator` (logz/file.go:42-66) plus ghost
fields (see the header comment). -/
structure AggState where
  serviceName     : FName
  rotationSize    : Int
  batchSize       : Nat
  compressAfter   : Int
  currentFileID   : FName
  currentOffset   : Int
  lastRotationDay : Nat
  batchBuffer     : List LogEntry
  writerBuf       : Bytes
  outputDirFiles  : List FileEntry
  flushedLog      : List LogEntry
  currentFileDate : FName
deriving Repr, DecidableEq

/-- The `.log` suffix of shard files. -/
def logSuffix : FName := ['.', 'l', 'o', 'g']

/-- The `.gz` suffix of compressed shards. -/
def gzSuffix : FName := ['.', 'g', 'z']

/-- File name of the shard with identifier `fid` (`fid + ".log"`,
logz/file.go:173). -/
def shardName (fid : FName) : FName := fid ++ logSuffix

/-- First file of the directory with the given name, if any. -/
def findFile : List FileEntry → FName → Option FileEntry
  | [], _ => none
  | f :: rest, n => if f.name = n then some f else findFile rest n

/-- Content of the named file; `[]` when absent. -/
def fileContent (files : List FileEntry) (n : FName) : Bytes :=
  match findFile files n with
  | some f => f.content
  | none => []

/-- Append `bs` to the named file, creating it when missing
(`os.OpenFile(..., O_CREATE|O_WRONLY|O_APPEND, ...)` plus writes). -/
def appendFile (files : List FileEntry) (n : FName) (bs : Bytes) (t : Int) :
    List FileEntry :=
  match files with
  | [] => [⟨n, bs, t⟩]
  | f :: rest =>
    if f.name = n then ⟨f.name, f.content ++ bs, t⟩ :: rest
    else f :: appendFile rest n bs t

/-- Does the directory contain a file of this name? -/
def containsName (files : List FileEntry) (n : FName) : Bool :=
  (findFile files n).isSome

/-- `l` starts with `pre`. -/
def startsWithL (pre l : List Char) : Bool :=
  decide (l.take pre.length = pre)

/-- `l` ends with `suf`. -/
def endsWithL (suf l : List Char) : Bool :=
  decide (l.drop (l.length - suf.length) = suf)

/-- `filepath.Glob` with a pattern of shape `pre*suf` (the only shapes the
source uses), restricted to a single path component: the name matches iff it
begins with `pre`, ends with `suf`, and is long enough for the two not to
overlap. -/
def globMatch (pre suf : FName) (name : FName) : Bool :=
  startsWithL pre name && endsWithL suf name &&
    decide (pre.length + suf.length ≤ name.length)

/-- `stat.Size()` of the currently open shard file (durable bytes). -/
def statSize (st : AggState) : Int :=
  ((fileContent st.outputDirFiles (shardName st.currentFileID)).length : Int)

/-- `shouldRotate` (logz/file.go:315-328): the durable size strictly
exceeds `rotationSize`, or the day of month of `now` differs from the day
of month of `lastRotation` (which the source sets once, at construction). -/
def shouldRotate (now : GoTime) (st : AggState) : Bool :=
  if statSize st > st.rotationSize then true
  else decide (now.day ≠ st.lastRotationDay)

/-- `writer.Flush()`: pending bytes become durable content of the current
shard file. -/
def flushWriter (now : GoTime) (st : AggState) : AggState :=
  if st.writerBuf = [] then st
  else
    { st with
      outputDirFiles :=
        appendFile st.outputDirFiles (shardName st.currentFileID)
          st.writerBuf now.unix
      writerBuf := [] }

/-- The loop body of `flushBatch` (logz/file.go:233-250): serialize each
buffered entry in order, hand `data ++ "\n"` to the buffered writer and
advance `currentOffset`; stop at the first entry `json.Marshal` rejects.
Returns the new offset, the new pending writer bytes, and whether every
entry was encoded. -/
def flushLoop (marshal : LogEntry → Option Bytes) :
    List LogEntry → Int → Bytes → Int × Bytes × Bool
  | [], off, wbuf => (off, wbuf, true)
  | e :: rest, off, wbuf =>
    match marshal e with
    | none => (off, wbuf, false)
    | some data =>
      flushLoop marshal rest (off + (data.length : Int) + 1)
        (wbuf ++ data ++ ['\n'])

/-- `flushBatch` (logz/file.go:224-259).  On success the writer is flushed
and the batch buffer cleared; on a serialization failure the function
returns at once, leaving the batch buffer untouched and the bytes of the
already-encoded prefix pending in the writer. -/
def flushBatch (marshal : LogEntry → Option Bytes) (now : GoTime)
    (st : AggState) : AggState × Option Err :=
  if st.batchBuffer = [] then (st, none)
  else
    match flushLoop marshal st.batchBuffer st.currentOffset st.writerBuf with
    | (off, wbuf, true) =>
      (flushWriter now
        { st with
          currentOffset := off
          writerBuf := wbuf
          batchBuffer := []
          flushedLog := st.flushedLog ++ st.batchBuffer }, none)
    | (off, wbuf, false) =>
      ({ st with currentOffset := off, writerBuf := wbuf },
        some Err.encodeError)

/-- Zero-padded width-3 decimal of `%03d`. -/
def pad3 (n : Nat) : FName :=
  if n < 10 then '0' :: '0' :: Nat.toDigits 10 n
  else if n < 100 then '0' :: Nat.toDigits 10 n
  else Nat.toDigits 10 n

/-- `"%s_%s_%03d"` — the shard identifier (logz/file.go:169). -/
def mkFileID (svc date : FName) (seq : Nat) : FName :=
  svc ++ ('_' :: date) ++ ('_' :: pad3 seq)

/-- Glob prefix for the same-day shards of this service:
`serviceName + "_" + date + "_"`. -/
def dayPrefix (svc date : FName) : FName :=
  svc ++ ('_' :: date) ++ ['_']

/-- `getFileSequence` (logz/file.go:187-194): one plus the COUNT of files
matching `service_date_*.log`; compressed (`.log.gz`) shards do not match
the pattern and are not counted. -/
def getFileSequence (now : GoTime) (st : AggState) : Nat :=
  (st.outputDirFiles.filter
    (fun f => globMatch (dayPrefix st.serviceName now.dateStr) logSuffix
      f.name)).length + 1

/-- `initializeFile` (logz/file.go:157-184): flush and close the previous
file, pick the next shard id from `getFileSequence`, reset
`currentOffset` to 0 (regardless of any pre-existing content of the file
being opened in append mode), and open-or-create the file. -/
def initializeFile (now : GoTime) (st : AggState) : AggState :=
  let st1 := flushWriter now st
  let fid := mkFileID st1.serviceName now.dateStr (getFileSequence now st1)
  let fname := shardName fid
  { st1 with
    currentFileID := fid
    currentOffset := 0
    outputDirFiles :=
      if containsName st1.outputDirFiles fname then st1.outputDirFiles
      else st1.outputDirFiles ++ [⟨fname, [], now.unix⟩]
    currentFileDate := now.dateStr }

/-- Service shard glob `serviceName + "_*.log"` used by both maintenance
tasks (logz/file.go:355, 392). -/
def matchSvcLog (svc : FName) (name : FName) : Bool :=
  globMatch (svc ++ ['_']) logSuffix name

/-- `cleanupOldFiles` (logz/file.go:351-369): delete every
`service_*.log` whose modification time is strictly before `now` minus
seven days.  The selection depends on the name pattern and the
modification time only. -/
def cleanupOldFiles (now : GoTime) (st : AggState) : AggState :=
  { st with
    outputDirFiles :=
      st.outputDirFiles.filter
        (fun f =>
          !(matchSvcLog st.serviceName f.name &&
            decide (f.mtime < now.unix - 7 * 86400))) }

/-- Remove every file of the given name. -/
def eraseName (files : List FileEntry) (n : FName) : List FileEntry :=
  files.filter (fun g => !decide (g.name = n))

/-- `compressFile` (logz/file.go:410-437): create (or truncate)
`name + ".gz"` with the original content (the gzip container is modelled as
the identity on bytes), then remove the original. -/
def compressFileStep (now : GoTime) (files : List FileEntry) (n : FName) :
    List FileEntry :=
  match findFile files n with
  | none => files
  | some f =>
    eraseName
      (eraseName files (n ++ gzSuffix) ++ [⟨n ++ gzSuffix, f.content, now.unix⟩])
      n

/-- `compressOldFiles` (logz/file.go:386-407): gzip every `service_*.log`
older than `compressAfter`.  The candidate set is the mtime-filtered glob
result; the currently-open shard is not special-cased. -/
def compressOldFiles (now : GoTime) (st : AggState) : AggState :=
  let cutoff := now.unix - st.compressAfter
  let victims :=
    st.outputDirFiles.filter
      (fun f => matchSvcLog st.serviceName f.name && decide (f.mtime < cutoff))
  { st with
    outputDirFiles :=
      victims.foldl
        (fun acc v =>
          if endsWithL gzSuffix v.name then acc
          else compressFileStep now acc v.name)
        st.outputDirFiles }

/-- `rotateFile` (logz/file.go:331-348): flush the batch (propagating its
error), flush and close the writer, run the retention cleanup, then open a
fresh shard. -/
def rotateFile (marshal : LogEntry → Option Bytes) (now : GoTime)
    (st : AggState) : AggState × Option Err :=
  match flushBatch marshal now st with
  | (st1, some e) => (st1, some e)
  | (st1, none) =>
    (initializeFile now (cleanupOldFiles now (flushWriter now st1)), none)

/-- The stamp `WriteLog` applies before buffering
(logz/file.go:202-203). -/
def stamp (st : AggState) (e : LogEntry) : LogEntry :=
  { e with fileID := st.currentFileID, offset := st.currentOffset }

/-- `WriteLog` (logz/file.go:197-221): stamp the record with the current
shard id and offset, append it to the batch buffer, rotate if needed, and
flush synchronously once the buffer reaches `batchSize`. -/
def writeLog (marshal : LogEntry → Option Bytes) (now : GoTime)
    (st : AggState) (e : LogEntry) : AggState × Option Err :=
  let st1 := { st with batchBuffer := st.batchBuffer ++ [stamp st e] }
  if shouldRotate now st1 then
    match rotateFile marshal now st1 with
    | (st2, some err) => (st2, some err)
    | (st2, none) =>
      if st2.batchSize ≤ st2.batchBuffer.length then flushBatch marshal now st2
      else (st2, none)
  else
    if st1.batchSize ≤ st1.batchBuffer.length then flushBatch marshal now st1
    else (st1, none)

/-- `Close` (logz/file.go:440-457): flush the batch (error discarded),
flush the writer, close the handles.  It always returns `nil`; no closed
flag is recorded anywhere. -/
def closeAgg (marshal : LogEntry → Option Bytes) (now : GoTime)
    (st : AggState) : AggState × Option Err :=
  (flushWriter now (flushBatch marshal now st).1, none)

/-! ### Query engine (logz/file.go:460-716)

The query side is parametrized over `unmarshal` (`json.Unmarshal` into
`LogEntry`), `regexMatch` (`regexp.MatchString`, with a compile failure
already folded into a `false` result exactly as the source discards it at
logz/file.go:693) and `parseTime` (`time.Parse(time.RFC3339, ...)`,
returning the instant on the model's linear time axis). -/

/-- `LogQuery` (logz/file.go:69-80).  The zero `time.Time` of the unset
`StartTime`/`EndTime` is modelled as `none`; `Limit`/`Offset` are the
non-negative values the claims concern. -/
structure LogQuery where
  traceID   : String := ""
  spanID    : String := ""
  level     : String := ""
  service   : String := ""
  startTime : Option Int := none
  endTime   : Option Int := none
  message   : String := ""
  limit     : Nat := 0
  offset    : Nat := 0
  useIndex  : Bool := false
deriving Repr, DecidableEq

/-- `LogQueryResult` (logz/file.go:83-88). -/
structure LogQueryResult where
  entries : List LogEntry
  total   : Nat
  limit   : Nat
  offset  : Nat
deriving Repr, DecidableEq

/-- The embedded bbolt store: one keyspace per attribute kind, each mapping
a key to the single most recent locator `(fileID, offset)` (the source
stores the string `fileID + ":" + offset` and re-parses it; the model keeps
the parsed pair). -/
structure IndexDB where
  traceIdB : String → Option (FName × Int)
  spanIdB  : String → Option (FName × Int)
  levelB   : String → Option (FName × Int)
  serviceB : String → Option (FName × Int)
  timeB    : String → Option (FName × Int)

/-- `strings.EqualFold` on the ASCII level names. -/
def eqFold (a b : String) : Bool := a.toLower == b.toLower

/-- `matchesQuery` (logz/file.go:670-716). -/
def matchesQuery (regexMatch : String → String → Bool)
    (parseTime : String → Option Int) (entry : LogEntry) (q : LogQuery) :
    Bool :=
  if q.traceID != "" && entry.traceID != q.traceID then false
  else if q.spanID != "" && entry.spanID != q.spanID then false
  else if q.level != "" && !eqFold entry.level q.level then false
  else if q.service != "" && entry.service != q.service then false
  else if q.message != "" && !regexMatch q.message entry.message then false
  else if q.startTime.isSome || q.endTime.isSome then
    match parseTime entry.timestamp with
    | none => false
    | some t =>
      (match q.startTime with
       | some s => !decide (t < s)
       | none => true) &&
      (match q.endTime with
       | some e2 => !decide (e2 < t)
       | none => true)
  else true

/-- `canUseIndex` (logz/file.go:485-502): exactly one of the four indexed
attributes is specified.  Message and time predicates are not consulted. -/
def canUseIndex (q : LogQuery) : Bool :=
  ((if q.traceID != "" then 1 else 0) +
   (if q.spanID != "" then 1 else 0) +
   (if q.level != "" then 1 else 0) +
   (if q.service != "" then 1 else 0) : Nat) == 1

/-- The bucket/key chain of `queryWithIndex` (logz/file.go:511-523)
followed by the bucket `Get`: `none` when no condition is set (the empty
bucket name resolves to no bucket), `some none` when the bucket has no
entry for the key, `some (some loc)` otherwise. -/
def indexLookup (idx : IndexDB) (q : LogQuery) :
    Option (Option (FName × Int)) :=
  if q.traceID != "" then some (idx.traceIdB q.traceID)
  else if q.spanID != "" then some (idx.spanIdB q.spanID)
  else if q.level != "" then some (idx.levelB q.level.toLower)
  else if q.service != "" then some (idx.serviceB q.service)
  else none

/-- `readLogEntry` (logz/file.go:563-587): open the file, seek to the
offset, scan one newline-delimited line, decode it. -/
def readLogEntry (unmarshal : Bytes → Option LogEntry)
    (dir : List FileEntry) (fname : FName) (off : Int) :
    Except Unit LogEntry :=
  match findFile dir fname with
  | none => Except.error ()
  | some f =>
    if off < 0 then Except.error ()
    else
      match f.content.drop off.toNat with
      | [] => Except.error ()
      | rest =>
        match unmarshal (rest.takeWhile (fun c => c != '\n')) with
        | none => Except.error ()
        | some e => Except.ok e

/-- `queryWithIndex` (logz/file.go:505-560): a missing bucket, a missing
key, or a failed positioned read all surface as an error; a hit returns the
single located record. -/
def queryWithIndex (unmarshal : Bytes → Option LogEntry) (idx : IndexDB)
    (dir : List FileEntry) (q : LogQuery) : Except Unit (List LogEntry) :=
  match indexLookup idx q with
  | none => Except.error ()
  | some none => Except.error ()
  | some (some (fid, off)) =>
    match readLogEntry unmarshal dir (shardName fid) off with
    | Except.error _ => Except.error ()
    | Except.ok e => Except.ok [e]

/-- Split on newline bytes, keeping a final fragment (possibly empty);
together with the blank-line skip below this coincides with
`bufio.Scanner` line iteration. -/
def splitNl : Bytes → List Bytes
  | [] => [[]]
  | c :: rest =>
    if c = '\n' then [] :: splitNl rest
    else
      match splitNl rest with
      | [] => [[c]]
      | h :: t => (c :: h) :: t

/-- ASCII approximation of `strings.TrimSpace`. -/
def trimSpace (l : Bytes) : Bytes :=
  let ws := fun c => c = ' ' || c = '\t' || c = '\r' || c = '\n'
  ((l.dropWhile ws).reverse.dropWhile ws).reverse

/-- `queryFile` (logz/file.go:637-667): scan the file line by line, skip
blank and undecodable lines, keep the entries matching the query. -/
def queryFile (unmarshal : Bytes → Option LogEntry)
    (regexMatch : String → String → Bool) (parseTime : String → Option Int)
    (content : Bytes) (q : LogQuery) : List LogEntry :=
  (splitNl content).filterMap
    (fun line =>
      let l := trimSpace line
      if l = [] then none
      else
        match unmarshal l with
        | none => none
        | some e =>
          if matchesQuery regexMatch parseTime e q then some e else none)

/-- Insertion into a list sorted by decreasing modification time. -/
def insertByMtime (f : FileEntry) : List FileEntry → List FileEntry
  | [] => [f]
  | g :: rest =>
    if g.mtime ≤ f.mtime then f :: g :: rest else g :: insertByMtime f rest

/-- `sort.Slice(files, ModTime().After)` (logz/file.go:604-608): newest
first (the source's order among equal mtimes is unspecified; the model
fixes a stable one). -/
def sortByMtimeDesc (files : List FileEntry) : List FileEntry :=
  files.foldr insertByMtime []

/-- The pre-pagination match list of `queryWithFileScan`
(logz/file.go:598-618): every `*.log` file, newest first, scanned with
`queryFile`. -/
def scanMatches (unmarshal : Bytes → Option LogEntry)
    (regexMatch : String → String → Bool) (parseTime : String → Option Int)
    (dir : List FileEntry) (q : LogQuery) : List LogEntry :=
  (sortByMtimeDesc (dir.filter (fun f => globMatch [] logSuffix f.name))).foldl
    (fun acc f => acc ++ queryFile unmarshal regexMatch parseTime f.content q)
    []

/-- `queryWithFileScan` (logz/file.go:590-634): accumulate all matches,
then apply offset/limit pagination; `Total` reports the pre-pagination
count. -/
def queryWithFileScan (unmarshal : Bytes → Option LogEntry)
    (regexMatch : String → String → Bool) (parseTime : String → Option Int)
    (dir : List FileEntry) (q : LogQuery) : LogQueryResult :=
  let all := scanMatches unmarshal regexMatch parseTime dir q
  let total := all.length
  let entries :=
    if total ≤ q.offset then []
    else
      let e := if total < q.offset + q.limit then total else q.offset + q.limit
      (all.drop q.offset).take (e - q.offset)
  ⟨entries, total, q.limit, q.offset⟩

/-- The guard of the index branch in `QueryLogs` (logz/file.go:471):
`query.UseIndex && aggregator != nil && canUseIndex(query)`. -/
def usesIndexPlan (agg : Option IndexDB) (q : LogQuery) : Bool :=
  q.useIndex && agg.isSome && canUseIndex q

/-- `QueryLogs` (logz/file.go:460-482): attempt the index plan when the
guard holds, fall back to the full file scan when it does not or when the
index attempt errors. -/
def queryLogs (unmarshal : Bytes → Option LogEntry)
    (regexMatch : String → String → Bool) (parseTime : String → Option Int)
    (agg : Option IndexDB) (dir : List FileEntry) (q : LogQuery) :
    LogQueryResult :=
  if usesIndexPlan agg q then
    match agg with
    | some idx =>
      match queryWithIndex unmarshal idx dir q with
      | Except.ok es => ⟨es, es.length, q.limit, q.offset⟩
      | Except.error _ => queryWithFileScan unmarshal regexMatch parseTime dir q
    | none => queryWithFileScan unmarshal regexMatch parseTime dir q
  else queryWithFileScan unmarshal regexMatch parseTime dir q

/-! ### Concrete fixtures

A small aggregator instance and a concrete codec used to evaluate the
model on closed inputs.  `demoMarshal` serializes a record as the bytes of
its message (newline-free, injective on the records used), and
`demoUnmarshal` is its inverse on the stamped records appearing in the
traces below. -/

/-- Shard id of the demo aggregator's open shard. -/
def demoShardID : FName := "svc_2026-10-11_001".data

/-- File name of the demo aggregator's open shard. -/
def demoShardFile : FName := shardName demoShardID

/-- A freshly initialized aggregator for service `svc` on 2026-10-11 with
an empty open shard, large `rotationSize`, and the constructor's
`batchSize` of 100. -/
def demoState : AggState :=
  { serviceName := "svc".data
    rotationSize := 1000
    batchSize := 100
    compressAfter := 86400
    currentFileID := demoShardID
    currentOffset := 0
    lastRotationDay := 11
    batchBuffer := []
    writerBuf := []
    outputDirFiles := [⟨demoShardFile, [], 100⟩]
    flushedLog := []
    currentFileDate := "2026-10-11".data }

/-- The instant at which the demo operations run: same day of month and
calendar date as the shard, shortly after its creation. -/
def demoNow : GoTime := ⟨11, "2026-10-11".data, 200⟩

/-- Concrete serializer: the bytes of the message field. -/
def demoMarshal : LogEntry → Option Bytes := fun e => some e.message.data

/-- First demo record, as submitted. -/
def entryA : LogEntry := { message := "a" }

/-- Second demo record, as submitted. -/
def entryB : LogEntry := { message := "b" }

/-- `entryA` as stamped by `writeLog` on `demoState`. -/
def entryAS : LogEntry := { message := "a", fileID := demoShardID, offset := 0 }

/-- `entryB` as stamped by `writeLog` after `entryA` was buffered (the
offset has not advanced: no flush happened in between). -/
def entryBS : LogEntry := { message := "b", fileID := demoShardID, offset := 0 }

/-- Concrete deserializer, inverse of `demoMarshal` on the two stamped
demo records. -/
def demoUnmarshal : Bytes → Option LogEntry := fun l =>
  if l = ['a'] then some entryAS else if l = ['b'] then some entryBS else none

/-- State after `WriteLog(entryA); WriteLog(entryB); flushBatch()` on the
demo aggregator: both records were buffered into one batch and flushed
together. -/
def demoTwoWrites : AggState :=
  (flushBatch demoMarshal demoNow
    (writeLog demoMarshal demoNow
      (writeLog demoMarshal demoNow demoState entryA).1 entryB).1).1

/-- The demo aggregator with one stamped record pending in the batch
buffer. -/
def demoPending : AggState := { demoState with batchBuffer := [entryAS] }

/-- Serializer that rejects records whose message is `bad`
(`json.Marshal` fails, e.g., on unsupported values in the `Fields`
map). -/
def demoBadMarshal : LogEntry → Option Bytes := fun e =>
  if e.message = "bad" then none else some e.message.data

/-- An unserializable record, stamped as `WriteLog` would stamp it on the
fresh demo aggregator. -/
def entryBadS : LogEntry :=
  { message := "bad", fileID := demoShardID, offset := 0 }

/-- The demo aggregator with a good record queued ahead of an
unserializable one in the same batch. -/
def demoPoisoned : AggState :=
  { demoState with batchBuffer := [entryAS, entryBadS] }

/-- The bytes `flushBatch` hands to the buffered writer for a run of
successfully serialized records: each encoding followed by a newline. -/
def encBytes (m : LogEntry → Option Bytes) (pre : List LogEntry) : Bytes :=
  pre.foldr (fun e acc => ((m e).getD []) ++ '\n' :: acc) []

/-- The demo aggregator whose open shard has gone stale: its modification
time lies far behind the maintenance instant `demoLater`. -/
def demoStale : AggState :=
  { demoState with outputDirFiles := [⟨demoShardFile, "x\n".data, 0⟩] }

/-- A maintenance instant more than both thresholds after the stale
shard's modification time. -/
def demoLater : GoTime := ⟨11, "2026-10-11".data, 1000000⟩

/-- A directory day-state for the sequence-number claim: the only
same-day shard of the service carries sequence 002 (001 is gone, e.g.
deleted by retention), and it is non-empty. -/
def demoSeqState : AggState :=
  { demoState with
    outputDirFiles := [⟨"svc_2026-10-11_002.log".data, "hello".data, 100⟩]
    currentFileID := "x".data }

/-- Modelled from the spec: `shouldRotate` as §4.2 states it — "true iff
the current file's size ≥ configured rotation-size, OR the calendar day
differs from the day embedded in the current shard-id" (the embedded day
is the ghost field `currentFileDate`).  Kept separate from the source's
`shouldRotate` in order to compare the two. -/
def shouldRotateSpec (now : GoTime) (st : AggState) : Bool :=
  decide (st.rotationSize ≤ statSize st) ||
    decide (now.dateStr ≠ st.currentFileDate)

/-- The demo aggregator whose open shard holds exactly `rotationSize`
bytes. -/
def demoBoundaryState : AggState :=
  { demoState with
    rotationSize := 4
    outputDirFiles := [⟨demoShardFile, "abcd".data, 100⟩] }

/-- Substring containment, standing in for `regexp.MatchString` on the
literal (metacharacter-free) patterns used in the fixtures. -/
def demoRegexMatch (p m : String) : Bool :=
  (List.range (m.data.length + 1)).any
    (fun i => startsWithL p.data (m.data.drop i))

/-- Timestamp parser for fixtures that use no time predicates. -/
def demoParseTime : String → Option Int := fun _ => none

/-- An index store with no postings at all. -/
def idxEmpty : IndexDB :=
  ⟨fun _ => none, fun _ => none, fun _ => none, fun _ => none, fun _ => none⟩

/-- An index store holding one trace-id posting: `t1 ↦ (f, 0)`. -/
def idxT : IndexDB :=
  { traceIdB := fun k => if k = "t1" then some ("f".data, 0) else none
    spanIdB := fun _ => none
    levelB := fun _ => none
    serviceB := fun _ => none
    timeB := fun _ => none }

/-- The record stored in the query-engine fixture: trace `t1`, message
`hello`. -/
def entryT : LogEntry := { message := "hello", traceID := "t1" }

/-- Deserializer for the query-engine fixture: the line `a` decodes to
`entryT`. -/
def demoUnmarshalT : Bytes → Option LogEntry := fun l =>
  if l = ['a'] then some entryT else none

/-- A log directory holding one shard `f.log` with the single line `a`. -/
def demoDirT : List FileEntry := [⟨"f.log".data, "a\n".data, 0⟩]

/-- Query by trace id with the use-index hint and a message regex the
stored record does not match. -/
def demoMsgQuery : LogQuery :=
  { traceID := "t1", message := "zzz", useIndex := true, limit := 10 }

/-- Query by trace id alone with the use-index hint. -/
def demoTraceQuery : LogQuery :=
  { traceID := "t1", useIndex := true, limit := 10 }

/-- The all-defaults query: every predicate unset, `limit = 0`,
`offset = 0`. -/
def demoEmptyQuery : LogQuery := {}

/-! ### Helper lemmas -/

/-- `takeWhile` up to the first newline recovers a newline-free prefix. -/
theorem takeWhile_until_nl (d r : Bytes) (h : '\n' ∉ d) :
    (d ++ '\n' :: r).takeWhile (fun c => c != '\n') = d := by
  induction d with
  | nil => simp
  | cons c cs ih =>
    have hc : (c != '\n') = true := by
      simp only [bne_iff_ne, ne_eq]
      intro hEq
      exact h (hEq ▸ List.mem_cons_self c cs)
    have hcs : '\n' ∉ cs := fun m => h (List.mem_cons_of_mem c m)
    simp [List.takeWhile_cons, hc, ih hcs]

/-- Looking up a file right after appending to it. -/
theorem findFile_appendFile (files : List FileEntry) (n : FName) (bs : Bytes)
    (t : Int) :
    findFile (appendFile files n bs t) n =
      some ⟨n, fileContent files n ++ bs, t⟩ := by
  induction files with
  | nil => simp [appendFile, findFile, fileContent]
  | cons f rest ih =>
    by_cases h : f.name = n
    · simp [appendFile, findFile, fileContent, h]
    · simp [appendFile, findFile, fileContent, h, ih]

/-- A positioned read at the byte position where a newline-free encoded
line starts returns its decoding. -/
theorem readLogEntry_pos (um : Bytes → Option LogEntry)
    (dir : List FileEntry) (fname : FName) (fe : FileEntry) (a d r : Bytes)
    (e : LogEntry) (hF : findFile dir fname = some fe)
    (hC : fe.content = a ++ (d ++ '\n' :: r)) (hNL : '\n' ∉ d)
    (hU : um d = some e) :
    readLogEntry um dir fname (a.length : Int) = Except.ok e := by
  have h0 : ¬ ((a.length : Int) < 0) :=
    not_lt.mpr (Int.natCast_nonneg _)
  have hdrop : fe.content.drop ((a.length : Int)).toNat = d ++ '\n' :: r := by
    rw [hC]
    simp
  simp only [readLogEntry, hF, if_neg h0, hdrop]
  cases d with
  | nil => simp [hU]
  | cons c cs =>
    have htw := takeWhile_until_nl (c :: cs) r hNL
    simp only [List.cons_append] at htw ⊢
    rw [htw, hU]

/-- `flushLoop` never moves the running offset backwards. -/
theorem flushLoop_off_le (m : LogEntry → Option Bytes) (buf : List LogEntry)
    (off : Int) (wbuf : Bytes) : off ≤ (flushLoop m buf off wbuf).1 := by
  induction buf generalizing off wbuf with
  | nil => exact le_refl off
  | cons e rest ih =>
    unfold flushLoop
    cases hm : m e with
    | none => exact le_refl off
    | some d =>
      have h1 := ih (off + (d.length : Int) + 1) (wbuf ++ d ++ ['\n'])
      have h2 : (0 : Int) ≤ (d.length : Int) := Int.natCast_nonneg _
      show off ≤ (flushLoop m rest (off + (d.length : Int) + 1)
        (wbuf ++ d ++ ['\n'])).1
      omega

/-- A fully successful `flushLoop` over a nonempty buffer strictly
advances the offset. -/
theorem flushLoop_off_lt (m : LogEntry → Option Bytes) (buf : List LogEntry)
    (off : Int) (wbuf : Bytes) (hne : buf ≠ [])
    (hok : (flushLoop m buf off wbuf).2.2 = true) :
    off < (flushLoop m buf off wbuf).1 := by
  cases buf with
  | nil => exact absurd rfl hne
  | cons e rest =>
    unfold flushLoop at hok ⊢
    cases hm : m e with
    | none =>
      rw [hm] at hok
      exact absurd hok Bool.false_ne_true
    | some d =>
      have h1 := flushLoop_off_le m rest (off + (d.length : Int) + 1)
        (wbuf ++ d ++ ['\n'])
      have h2 : (0 : Int) ≤ (d.length : Int) := Int.natCast_nonneg _
      show off < (flushLoop m rest (off + (d.length : Int) + 1)
        (wbuf ++ d ++ ['\n'])).1
      omega

/-- `flushWriter` touches only the directory and the pending writer
bytes. -/
theorem flushWriter_proj (now : GoTime) (st : AggState) :
    (flushWriter now st).currentOffset = st.currentOffset ∧
    (flushWriter now st).currentFileID = st.currentFileID ∧
    (flushWriter now st).batchBuffer = st.batchBuffer ∧
    (flushWriter now st).flushedLog = st.flushedLog := by
  unfold flushWriter
  by_cases h : st.writerBuf = [] <;> simp [h]

/-- `flushLoop` on a buffer whose first unserializable record is `b`:
the records before `b` are handed to the writer and counted into the
offset, then the loop stops with failure. -/
theorem flushLoop_fail_spec (m : LogEntry → Option Bytes)
    (pre : List LogEntry) (b : LogEntry) (rest : List LogEntry) (off : Int)
    (wbuf : Bytes) (hpre : ∀ e ∈ pre, (m e).isSome = true)
    (hb : m b = none) :
    flushLoop m (pre ++ b :: rest) off wbuf =
      (off + ((encBytes m pre).length : Int), wbuf ++ encBytes m pre,
        false) := by
  induction pre generalizing off wbuf with
  | nil => simp [encBytes, flushLoop, hb]
  | cons e pre ih =>
    obtain ⟨d, hd⟩ :=
      Option.isSome_iff_exists.mp (hpre e (List.mem_cons_self e pre))
    have hpre' : ∀ x ∈ pre, (m x).isSome = true :=
      fun x hx => hpre x (List.mem_cons_of_mem e hx)
    simp only [List.cons_append, flushLoop, hd, List.append_eq]
    rw [ih (off + (d.length : Int) + 1) (wbuf ++ d ++ ['\n']) hpre']
    simp only [encBytes, List.foldr_cons, hd, Option.getD_some,
      Prod.mk.injEq]
    refine ⟨?_, ?_, trivial⟩
    · simp only [List.length_append, List.length_cons]
      push_cast
      ring
    · simp [List.append_assoc]

/-- `flushWriter` keeps the service name. -/
theorem flushWriter_svc (now : GoTime) (st : AggState) :
    (flushWriter now st).serviceName = st.serviceName := by
  unfold flushWriter
  by_cases h : st.writerBuf = [] <;> simp [h]

/-- A list ending in a nonempty suffix has that suffix's last element. -/
theorem endsWithL_getLast (s n : List Char) (hs : s ≠ [])
    (h : endsWithL s n = true) : n.getLast? = s.getLast? := by
  have hd : n.drop (n.length - s.length) = s := of_decide_eq_true h
  conv_lhs => rw [← List.take_append_drop (n.length - s.length) n]
  rw [List.getLast?_append, hd]
  obtain ⟨x, hx⟩ := Option.isSome_iff_exists.mp (List.getLast?_isSome.mpr hs)
  rw [hx]
  rfl

/-- A `.gz`-suffixed name never matches a `*.log` glob. -/
theorem gz_not_log_glob (pre n : List Char)
    (h : endsWithL gzSuffix n = true) :
    globMatch pre logSuffix n = false := by
  have hz : n.getLast? = some 'z' := by
    rw [endsWithL_getLast gzSuffix n (by decide) h]
    rfl
  have hlog : endsWithL logSuffix n = false := by
    cases hE : endsWithL logSuffix n with
    | false => rfl
    | true =>
      have hg : n.getLast? = some 'g' := by
        rw [endsWithL_getLast logSuffix n (by decide) hE]
        rfl
      rw [hz] at hg
      exact absurd (Option.some.inj hg) (by decide)
  simp [globMatch, hlog]

/-- A `WriteLog` that triggers neither rotation nor a size-based flush
only stamps the record and appends it to the batch buffer. -/
theorem writeLog_buffered (marshal : LogEntry → Option Bytes) (now : GoTime)
    (st : AggState) (e : LogEntry)
    (hSize : statSize st ≤ st.rotationSize)
    (hDay : now.day = st.lastRotationDay)
    (hCap : st.batchBuffer.length + 1 < st.batchSize) :
    writeLog marshal now st e =
      ({ st with batchBuffer := st.batchBuffer ++ [stamp st e] }, none) := by
  have hRotF : shouldRotate now
      { st with batchBuffer := st.batchBuffer ++ [stamp st e] } = false := by
    unfold shouldRotate
    rw [if_neg]
    · simp [hDay]
    · exact not_lt.mpr hSize
  have hLen : ¬ st.batchSize ≤ st.batchBuffer.length + 1 := by omega
  simp only [writeLog]
  rw [hRotF]
  simp [hLen]

/-! ### Claim theorems -/

/-- **C1, counterexample.**  The claim fails on the source: `WriteLog`
stamps the offset at enqueue time (logz/file.go:203), while
`currentOffset` advances only during `flushBatch`, so the second record of
a two-record batch is stamped offset 0 although its encoded form lands at
byte 2.  Reading the stamped range returns the *first* record, not an
equivalent of the second. -/
theorem stale_offset_stamp_counterexample :
    demoTwoWrites.flushedLog = [entryAS, entryBS] ∧
    entryBS.offset = 0 ∧
    fileContent demoTwoWrites.outputDirFiles demoShardFile = "a\nb\n".data ∧
    readLogEntry demoUnmarshal demoTwoWrites.outputDirFiles
      (shardName entryBS.fileID) entryBS.offset = Except.ok entryAS ∧
    entryAS ≠ entryBS := by
  refine ⟨by decide, by decide, by decide, by rfl, by decide⟩

/-- **C1, amended.**  The locator stamp is taken from the shard state as
of the last completed flush; it is correct exactly when the record is the
first of its batch.  Amended round-trip: starting from an empty batch
buffer in a consistent state (offset = durable length + pending writer
bytes), a single `WriteLog` followed by `flushBatch` stores the record at
its stamped position, and reading the stamped range decodes it back. -/
theorem writeLog_single_batch_roundTrip (marshal : LogEntry → Option Bytes)
    (unmarshal : Bytes → Option LogEntry) (now : GoTime) (st : AggState)
    (e : LogEntry) (d : Bytes)
    (hInv : st.currentOffset =
      (((fileContent st.outputDirFiles (shardName st.currentFileID)).length
        + st.writerBuf.length : Nat) : Int))
    (hBuf : st.batchBuffer = [])
    (hSize : statSize st ≤ st.rotationSize)
    (hDay : now.day = st.lastRotationDay)
    (hBS : 2 ≤ st.batchSize)
    (hM : marshal (stamp st e) = some d)
    (hNL : '\n' ∉ d)
    (hU : unmarshal d = some (stamp st e)) :
    (writeLog marshal now st e).2 = none ∧
    (flushBatch marshal now (writeLog marshal now st e).1).2 = none ∧
    readLogEntry unmarshal
      (flushBatch marshal now (writeLog marshal now st e).1).1.outputDirFiles
      (shardName (stamp st e).fileID) (stamp st e).offset =
      Except.ok (stamp st e) := by
  have hW := writeLog_buffered marshal now st e hSize hDay
    (by rw [hBuf]; simp only [List.length_nil]; omega)
  rw [hW]
  refine ⟨rfl, ?_⟩
  have hBufNe : st.batchBuffer ++ [stamp st e] ≠ [] := by simp
  have hLoop : flushLoop marshal (st.batchBuffer ++ [stamp st e])
      st.currentOffset st.writerBuf =
      (st.currentOffset + (d.length : Int) + 1,
        st.writerBuf ++ d ++ ['\n'], true) := by
    rw [hBuf]
    simp [flushLoop, hM]
  have hFl : flushBatch marshal now
      { st with batchBuffer := st.batchBuffer ++ [stamp st e] } =
      (flushWriter now
        { st with
          currentOffset := st.currentOffset + (d.length : Int) + 1
          writerBuf := st.writerBuf ++ d ++ ['\n']
          batchBuffer := []
          flushedLog := st.flushedLog ++ (st.batchBuffer ++ [stamp st e]) },
        none) := by
    unfold flushBatch
    rw [if_neg (by simp)]
    simp only [hLoop]
  rw [hFl]
  refine ⟨rfl, ?_⟩
  have hWbNe : st.writerBuf ++ d ++ ['\n'] ≠ [] := by simp
  have hFw : (flushWriter now
      { st with
        currentOffset := st.currentOffset + (d.length : Int) + 1
        writerBuf := st.writerBuf ++ d ++ ['\n']
        batchBuffer := []
        flushedLog := st.flushedLog ++ (st.batchBuffer ++ [stamp st e]) },
      (none : Option Err)).1.outputDirFiles =
      appendFile st.outputDirFiles (shardName st.currentFileID)
        (st.writerBuf ++ d ++ ['\n']) now.unix := by
    unfold flushWriter
    rw [if_neg hWbNe]
  rw [hFw]
  have hFind := findFile_appendFile st.outputDirFiles
    (shardName st.currentFileID) (st.writerBuf ++ d ++ ['\n']) now.unix
  have hfid : (stamp st e).fileID = st.currentFileID := rfl
  have hoff : (stamp st e).offset = st.currentOffset := rfl
  rw [hfid, hoff, hInv]
  have hCont :
      (FileEntry.mk (shardName st.currentFileID)
        (fileContent st.outputDirFiles (shardName st.currentFileID) ++
          (st.writerBuf ++ d ++ ['\n'])) now.unix).content =
      (fileContent st.outputDirFiles (shardName st.currentFileID) ++
        st.writerBuf) ++ (d ++ '\n' :: ([] : Bytes)) := by
    simp
  have hlen :
      (((fileContent st.outputDirFiles (shardName st.currentFileID)).length
        + st.writerBuf.length : Nat) : Int) =
      (((fileContent st.outputDirFiles (shardName st.currentFileID) ++
          st.writerBuf).length : Nat) : Int) := by
    simp
  rw [hlen]
  exact readLogEntry_pos unmarshal _ _ _ _ d [] (stamp st e) hFind hCont hNL hU

/-- **C2, counterexample.**  Two distinct records written into the same
batch of one aggregator are both stamped `(svc_2026-10-11_001, 0)`: after a
flush, the flushed log contains two successfully written records with the
same `(shardId, offset)` pair, refuting the uniqueness claim. -/
theorem c2_duplicate_locator_counterexample :
    demoTwoWrites.flushedLog = [entryAS, entryBS] ∧
    entryAS.fileID = entryBS.fileID ∧
    entryAS.offset = entryBS.offset ∧
    entryAS ≠ entryBS := by
  refine ⟨by decide, by decide, by decide, by decide⟩

/-- **C2, amended.**  Records buffered between the same two flushes all
receive the identical `(shardId, offset)` stamp (a buffered `WriteLog`
leaves the stamping state unchanged), and a successful flush of a nonempty
batch strictly increases the offset — so distinct locators are guaranteed
only across different flush rounds, never within one batch. -/
theorem c2_same_epoch_same_stamp_flush_advances
    (marshal : LogEntry → Option Bytes) (now : GoTime) (st : AggState)
    (e1 e2 : LogEntry)
    (hSize : statSize st ≤ st.rotationSize)
    (hDay : now.day = st.lastRotationDay)
    (hCap : st.batchBuffer.length + 1 < st.batchSize)
    (hne : st.batchBuffer ≠ [])
    (hok : (flushBatch marshal now st).2 = none) :
    (writeLog marshal now st e1).1.currentOffset = st.currentOffset ∧
    (writeLog marshal now st e1).1.currentFileID = st.currentFileID ∧
    stamp (writeLog marshal now st e1).1 e2 = stamp st e2 ∧
    st.currentOffset < (flushBatch marshal now st).1.currentOffset := by
  have hW := writeLog_buffered marshal now st e1 hSize hDay hCap
  refine ⟨by rw [hW], by rw [hW], by rw [hW]; rfl, ?_⟩
  unfold flushBatch at hok ⊢
  rw [if_neg hne] at hok ⊢
  cases hL : flushLoop marshal st.batchBuffer st.currentOffset st.writerBuf with
  | mk off rest0 =>
    cases rest0 with
    | mk wbuf ok =>
      rw [hL] at hok
      cases ok with
      | false => exact Option.noConfusion hok
      | true =>
        have hlt := flushLoop_off_lt marshal st.batchBuffer st.currentOffset
          st.writerBuf hne (by rw [hL])
        rw [hL] at hlt
        have hproj := flushWriter_proj now
          { st with
            currentOffset := off
            writerBuf := wbuf
            batchBuffer := []
            flushedLog := st.flushedLog ++ st.batchBuffer }
        show st.currentOffset < (flushWriter now
          { st with
            currentOffset := off
            writerBuf := wbuf
            batchBuffer := []
            flushedLog := st.flushedLog ++ st.batchBuffer }).currentOffset
        rw [hproj.1]
        exact hlt

/-- **C2, witness.**  The amended statement evaluated on the demo
aggregator with one pending record. -/
theorem c2_same_epoch_same_stamp_flush_advances_witness :
    stamp (writeLog demoMarshal demoNow demoPending entryB).1 entryB =
      stamp demoPending entryB ∧
    demoPending.currentOffset <
      (flushBatch demoMarshal demoNow demoPending).1.currentOffset :=
  ⟨(c2_same_epoch_same_stamp_flush_advances demoMarshal demoNow demoPending
      entryB entryB (by decide) (by decide) (by decide) (by decide)
      (by rfl)).2.2.1,
   (c2_same_epoch_same_stamp_flush_advances demoMarshal demoNow demoPending
      entryB entryB (by decide) (by decide) (by decide) (by decide)
      (by rfl)).2.2.2⟩

/-- **C3, counterexample.**  The source keeps no closed flag: after
`Close()` (which itself returns `nil`), a further `WriteLog` on the demo
aggregator is accepted and returns `nil` — not a closed-error as the claim
requires. -/
theorem c3_write_after_close_no_error :
    (closeAgg demoMarshal demoNow demoState).2 = none ∧
    (writeLog demoMarshal demoNow
      (closeAgg demoMarshal demoNow demoState).1 entryA).2 = none ∧
    (writeLog demoMarshal demoNow
      (closeAgg demoMarshal demoNow demoState).1 entryA).1.batchBuffer =
      [entryAS] := by
  refine ⟨rfl, by decide, by decide⟩

/-- **C3, amended.**  `Close` always returns ok — in particular a second
`Close` does — but a subsequent write is *not* rejected: any `WriteLog`
that triggers neither rotation nor a size-based flush (closed or not)
returns ok and buffers the stamped record; no closed-error exists in the
code. -/
theorem c3_close_ok_write_still_accepted (marshal : LogEntry → Option Bytes)
    (now : GoTime) (st : AggState) (e : LogEntry) :
    (closeAgg marshal now st).2 = none ∧
    (closeAgg marshal now (closeAgg marshal now st).1).2 = none ∧
    (statSize st ≤ st.rotationSize → now.day = st.lastRotationDay →
      st.batchBuffer.length + 1 < st.batchSize →
      (writeLog marshal now st e).2 = none ∧
      (writeLog marshal now st e).1.batchBuffer =
        st.batchBuffer ++ [stamp st e]) := by
  refine ⟨rfl, rfl, fun hSize hDay hCap => ?_⟩
  have hW := writeLog_buffered marshal now st e hSize hDay hCap
  exact ⟨by rw [hW], by rw [hW]⟩

/-- **C3, witness.**  The amended statement evaluated on the post-close
demo aggregator. -/
theorem c3_close_ok_write_still_accepted_witness :
    (writeLog demoMarshal demoNow
      (closeAgg demoMarshal demoNow demoState).1 entryA).2 = none ∧
    (writeLog demoMarshal demoNow
      (closeAgg demoMarshal demoNow demoState).1 entryA).1.batchBuffer =
      (closeAgg demoMarshal demoNow demoState).1.batchBuffer ++
        [stamp (closeAgg demoMarshal demoNow demoState).1 entryA] :=
  (c3_close_ok_write_still_accepted demoMarshal demoNow
    (closeAgg demoMarshal demoNow demoState).1 entryA).2.2
    (by decide) (by decide) (by decide)

/-- **C4, counterexample.**  An encode failure does *not* discard the
batch: `flushBatch` returns early with the buffer intact, and the next
flush hands the encoding of the good record to the writer a second time
(the line `a\n` appears twice in the pending writer bytes). -/
theorem c4_encode_error_batch_not_discarded :
    (flushBatch demoBadMarshal demoNow demoPoisoned).2 =
      some Err.encodeError ∧
    (flushBatch demoBadMarshal demoNow demoPoisoned).1.batchBuffer =
      [entryAS, entryBadS] ∧
    (flushBatch demoBadMarshal demoNow
      (flushBatch demoBadMarshal demoNow demoPoisoned).1).1.writerBuf =
      "a\na\n".data := by
  refine ⟨rfl, by decide, by decide⟩

/-- **C4, amended.**  When serializing record `b` fails mid-batch, the
flush surfaces an encode-error but *retains* the whole batch in the
buffer (nothing is discarded, so the aggregator keeps accepting writes),
leaves the durable files untouched, and has already handed the encodings
of the records before `b` to the writer — a subsequent flush hands them
over again, so their bytes are appended twice. -/
theorem c4_flushBatch_encode_error_retains_batch
    (m : LogEntry → Option Bytes) (now : GoTime) (st : AggState)
    (pre : List LogEntry) (b : LogEntry) (rest : List LogEntry)
    (hBuf : st.batchBuffer = pre ++ b :: rest)
    (hpre : ∀ e ∈ pre, (m e).isSome = true)
    (hb : m b = none) :
    (flushBatch m now st).2 = some Err.encodeError ∧
    (flushBatch m now st).1.batchBuffer = st.batchBuffer ∧
    (flushBatch m now st).1.outputDirFiles = st.outputDirFiles ∧
    (flushBatch m now st).1.writerBuf = st.writerBuf ++ encBytes m pre ∧
    (flushBatch m now (flushBatch m now st).1).1.writerBuf =
      st.writerBuf ++ encBytes m pre ++ encBytes m pre := by
  have hne : st.batchBuffer ≠ [] := by rw [hBuf]; simp
  have hFB : flushBatch m now st =
      ({ st with
          batchBuffer := pre ++ b :: rest
          currentOffset := st.currentOffset + ((encBytes m pre).length : Int)
          writerBuf := st.writerBuf ++ encBytes m pre },
        some Err.encodeError) := by
    unfold flushBatch
    rw [if_neg hne, hBuf,
      flushLoop_fail_spec m pre b rest st.currentOffset st.writerBuf hpre hb]
  have hFB2 : flushBatch m now (flushBatch m now st).1 =
      ({ st with
          batchBuffer := pre ++ b :: rest
          currentOffset := st.currentOffset + ((encBytes m pre).length : Int)
            + ((encBytes m pre).length : Int)
          writerBuf := st.writerBuf ++ encBytes m pre ++ encBytes m pre },
        some Err.encodeError) := by
    rw [hFB]
    unfold flushBatch
    rw [if_neg (by simp),
      flushLoop_fail_spec m pre b rest _ _ hpre hb]
  refine ⟨by rw [hFB], by rw [hFB]; exact hBuf.symm, by rw [hFB],
    by rw [hFB], by rw [hFB2]⟩

/-- **C4, witness.**  The amended statement evaluated on the poisoned
demo batch. -/
theorem c4_flushBatch_encode_error_retains_batch_witness :
    (flushBatch demoBadMarshal demoNow demoPoisoned).2 =
      some Err.encodeError ∧
    (flushBatch demoBadMarshal demoNow demoPoisoned).1.batchBuffer =
      demoPoisoned.batchBuffer :=
  ⟨(c4_flushBatch_encode_error_retains_batch demoBadMarshal demoNow
      demoPoisoned [entryAS] entryBadS [] (by rfl) (by decide) (by rfl)).1,
   (c4_flushBatch_encode_error_retains_batch demoBadMarshal demoNow
      demoPoisoned [entryAS] entryBadS [] (by rfl) (by decide) (by rfl)).2.1⟩

/-- **C1, witness.**  The amended round-trip evaluated on the demo
aggregator and a single record. -/
theorem writeLog_single_batch_roundTrip_witness :
    readLogEntry demoUnmarshal
      (flushBatch demoMarshal demoNow
        (writeLog demoMarshal demoNow demoState entryA).1).1.outputDirFiles
      (shardName (stamp demoState entryA).fileID)
      (stamp demoState entryA).offset = Except.ok (stamp demoState entryA) :=
  (writeLog_single_batch_roundTrip demoMarshal demoUnmarshal demoNow demoState
    entryA ['a'] (by decide) (by decide) (by decide) (by decide) (by decide)
    (by rfl) (by decide) (by rfl)).2.2

/-- **C5, counterexample.**  A currently-open shard whose modification
time has fallen behind the thresholds is compressed (the `.log` file is
replaced by a `.gz` copy while it is still the open shard) and deleted by
the retention pass — neither task excludes it. -/
theorem c5_current_shard_compressed_and_deleted :
    demoStale.currentFileID = demoShardID ∧
    (compressOldFiles demoLater demoStale).outputDirFiles =
      [⟨demoShardFile ++ gzSuffix, "x\n".data, 1000000⟩] ∧
    (cleanupOldFiles demoLater demoStale).outputDirFiles = [] := by
  refine ⟨rfl, by decide, by decide⟩

/-- **C5, amended.**  Both maintenance tasks select their victims by the
name pattern and the modification time alone: the retention pass removes
exactly the service's `.log` files older than seven days, and neither
task's result depends on which shard is currently open — the open shard
is spared only while its modification time is recent. -/
theorem c5_maintenance_filters_by_mtime_only (st : AggState) (now : GoTime)
    (fid : FName) :
    (cleanupOldFiles now st).outputDirFiles =
      st.outputDirFiles.filter
        (fun f =>
          !(matchSvcLog st.serviceName f.name &&
            decide (f.mtime < now.unix - 7 * 86400))) ∧
    (cleanupOldFiles now { st with currentFileID := fid }).outputDirFiles =
      (cleanupOldFiles now st).outputDirFiles ∧
    (compressOldFiles now { st with currentFileID := fid }).outputDirFiles =
      (compressOldFiles now st).outputDirFiles :=
  ⟨rfl, rfl, rfl⟩

/-- **C6, counterexample.**  With the same-day directory `{002}` (001 was
removed), `initializeFile` picks sequence count+1 = 2, re-opening the
existing non-empty shard `svc_2026-10-11_002.log` — not max+1 = 3 — and
records starting offset 0 although the opened file already holds 5
bytes. -/
theorem c6_sequence_collision_and_zero_offset :
    (initializeFile demoNow demoSeqState).currentFileID =
      "svc_2026-10-11_002".data ∧
    containsName demoSeqState.outputDirFiles
      (shardName (initializeFile demoNow demoSeqState).currentFileID) =
      true ∧
    ("svc_2026-10-11_002".data : FName) ≠ "svc_2026-10-11_003".data ∧
    (initializeFile demoNow demoSeqState).currentOffset = 0 ∧
    (fileContent (initializeFile demoNow demoSeqState).outputDirFiles
      (shardName (initializeFile demoNow demoSeqState).currentFileID)).length
      = 5 := by
  refine ⟨by decide, by decide, by decide, by decide, by decide⟩

/-- **C6, amended.**  A newly opened shard gets sequence number one plus
the COUNT of existing same-day uncompressed shards of the service
(compressed `.log.gz` shards are not counted — adding one leaves the
sequence unchanged), and the starting offset is recorded as zero
regardless of the opened file's length. -/
theorem c6_initializeFile_sequence_count_plus_one (st : AggState)
    (now : GoTime) :
    (initializeFile now st).currentFileID =
      mkFileID st.serviceName now.dateStr
        (getFileSequence now (flushWriter now st)) ∧
    (initializeFile now st).currentOffset = 0 ∧
    (∀ (fname : FName) (cont : Bytes) (t : Int),
      endsWithL gzSuffix fname = true →
      getFileSequence now
        { st with outputDirFiles := st.outputDirFiles ++ [⟨fname, cont, t⟩] }
        = getFileSequence now st) := by
  refine ⟨?_, rfl, ?_⟩
  · simp only [initializeFile]
    rw [flushWriter_svc]
  · intro fname cont t hgz
    unfold getFileSequence
    simp [List.filter_append,
      gz_not_log_glob (dayPrefix st.serviceName now.dateStr) fname hgz]

/-- **C6, witness.**  The amended statement evaluated on the demo
aggregator: its open shard has count 1, so the next sequence is 2, and an
added compressed shard is not counted. -/
theorem c6_initializeFile_sequence_count_plus_one_witness :
    getFileSequence demoNow
      { demoState with
        outputDirFiles :=
          demoState.outputDirFiles ++
            [⟨"svc_2026-10-10_001.log.gz".data, [], 0⟩] } =
      getFileSequence demoNow demoState :=
  (c6_initializeFile_sequence_count_plus_one demoState demoNow).2.2
    "svc_2026-10-10_001.log.gz".data [] 0 (by decide)

/-- **C7, counterexample.**  A query with the use-index hint, a trace-id,
*and* a message regex is executed by the index plan: the code's guard
ignores the message (and time) predicates, so the unrechecked index hit is
returned even though the scan plan — which the claim requires here —
rejects the record. -/
theorem c7_index_plan_ignores_message_predicate :
    queryLogs demoUnmarshalT demoRegexMatch demoParseTime (some idxT)
      demoDirT demoMsgQuery = ⟨[entryT], 1, 10, 0⟩ ∧
    queryWithFileScan demoUnmarshalT demoRegexMatch demoParseTime demoDirT
      demoMsgQuery = ⟨[], 0, 10, 0⟩ ∧
    ([entryT] : List LogEntry) ≠ [] := by
  refine ⟨by decide, by decide, by decide⟩

/-- **C7, amended.**  The index plan is attempted exactly when the
use-index hint is true, a global aggregator is registered, and exactly one
of {trace-id, span-id, severity, service} is specified — message and
timestamp predicates are not consulted; in every other case (and when the
index attempt fails) the scan plan runs. -/
theorem c7_index_plan_guard_characterization (agg : Option IndexDB)
    (q : LogQuery) (um : Bytes → Option LogEntry)
    (rm : String → String → Bool) (pt : String → Option Int)
    (dir : List FileEntry) :
    (usesIndexPlan agg q = true ↔
      (q.useIndex = true ∧ agg.isSome = true ∧
        ((q.traceID ≠ "" ∧ q.spanID = "" ∧ q.level = "" ∧ q.service = "") ∨
         (q.traceID = "" ∧ q.spanID ≠ "" ∧ q.level = "" ∧ q.service = "") ∨
         (q.traceID = "" ∧ q.spanID = "" ∧ q.level ≠ "" ∧ q.service = "") ∨
         (q.traceID = "" ∧ q.spanID = "" ∧ q.level = "" ∧
           q.service ≠ "")))) ∧
    (usesIndexPlan agg q = false →
      queryLogs um rm pt agg dir q = queryWithFileScan um rm pt dir q) := by
  constructor
  · simp only [usesIndexPlan, canUseIndex, Bool.and_eq_true, beq_iff_eq,
      bne_iff_ne, ne_eq]
    by_cases h1 : q.traceID = "" <;> by_cases h2 : q.spanID = "" <;>
      by_cases h3 : q.level = "" <;> by_cases h4 : q.service = "" <;>
      simp [h1, h2, h3, h4]
  · intro h
    simp [queryLogs, h]

/-- **C7, witness.**  The scan-plan branch of the amended statement
evaluated with no registered aggregator. -/
theorem c7_index_plan_guard_characterization_witness :
    queryLogs demoUnmarshalT demoRegexMatch demoParseTime none demoDirT
      demoTraceQuery =
      queryWithFileScan demoUnmarshalT demoRegexMatch demoParseTime demoDirT
        demoTraceQuery :=
  (c7_index_plan_guard_characterization none demoTraceQuery demoUnmarshalT
    demoRegexMatch demoParseTime demoDirT).2 (by decide)

/-- **C8, counterexample.**  When the looked-up key has no index entry,
the query does *not* return an empty result: `queryWithIndex` surfaces an
error and `QueryLogs` falls back to the file scan, which here returns one
record. -/
theorem c8_index_miss_falls_back_to_scan :
    (queryLogs demoUnmarshalT demoRegexMatch demoParseTime (some idxEmpty)
      demoDirT demoTraceQuery).entries = [entryT] ∧
    ([entryT] : List LogEntry) ≠ [] := by
  refine ⟨by decide, by decide⟩

/-- **C8, amended.**  Under the index plan (use-index true, exactly one
indexed attribute): a missing bucket entry makes the engine fall back to
the full file scan (not an empty result); an existing entry whose
positioned read succeeds yields exactly that single record with total 1;
a failing read also falls back to the scan. -/
theorem c8_queryLogs_index_result_characterization
    (um : Bytes → Option LogEntry) (rm : String → String → Bool)
    (pt : String → Option Int) (idx : IndexDB) (dir : List FileEntry)
    (q : LogQuery) (hU : q.useIndex = true) (hC : canUseIndex q = true) :
    queryLogs um rm pt (some idx) dir q =
      (match indexLookup idx q with
       | some (some (fid, off)) =>
         (match readLogEntry um dir (shardName fid) off with
          | Except.ok e => ⟨[e], 1, q.limit, q.offset⟩
          | Except.error _ => queryWithFileScan um rm pt dir q)
       | _ => queryWithFileScan um rm pt dir q) := by
  have hPlan : usesIndexPlan (some idx) q = true := by
    simp [usesIndexPlan, hU, hC]
  rcases hL : indexLookup idx q with - | lo
  · simp [queryLogs, hPlan, queryWithIndex, hL]
  · rcases lo with - | ⟨fid, off⟩
    · simp [queryLogs, hPlan, queryWithIndex, hL]
    · rcases hR : readLogEntry um dir (shardName fid) off with u | e
      · simp [queryLogs, hPlan, queryWithIndex, hL, hR]
      · simp [queryLogs, hPlan, queryWithIndex, hL, hR]

/-- **C8, witness.**  The single-record branch of the amended statement,
evaluated on the one-posting index. -/
theorem c8_queryLogs_index_result_characterization_witness :
    queryLogs demoUnmarshalT demoRegexMatch demoParseTime (some idxT)
      demoDirT demoTraceQuery = ⟨[entryT], 1, 10, 0⟩ := by
  rw [c8_queryLogs_index_result_characterization demoUnmarshalT
    demoRegexMatch demoParseTime idxT demoDirT demoTraceQuery rfl
    (by decide)]
  decide

/-- **C9, counterexample.**  At a shard holding exactly `rotationSize`
bytes, on the same calendar day, the source's `shouldRotate` answers
`false` while the claimed condition (size ≥ rotation-size, or day differs
from the one embedded in the shard id) answers `true`: the size test is
strict and the day test compares against `lastRotation`, not the shard
id. -/
theorem c9_shouldRotate_boundary_counterexample :
    shouldRotate demoNow demoBoundaryState = false ∧
    shouldRotateSpec demoNow demoBoundaryState = true := by
  refine ⟨by decide, by decide⟩

/-- **C9, amended.**  `shouldRotate` returns true iff the current shard
file's size is *strictly greater* than the configured rotation-size, or
the current day of month differs from the day of month of the
`lastRotation` timestamp (set once at construction) — not the day embedded
in the shard id. -/
theorem c9_shouldRotate_characterization (now : GoTime) (st : AggState) :
    shouldRotate now st = true ↔
      (st.rotationSize < statSize st ∨ now.day ≠ st.lastRotationDay) := by
  by_cases h : st.rotationSize < statSize st <;> simp [shouldRotate, h]

/-- **C10 (confirmed).**  For every scan-plan query with `Limit` unset
(zero) and `Offset` below the number of matches, the returned entries
slice is empty while `Total` still reports the full pre-pagination match
count. -/
theorem c10_scan_zero_limit_empty_entries (um : Bytes → Option LogEntry)
    (rm : String → String → Bool) (pt : String → Option Int)
    (dir : List FileEntry) (q : LogQuery) (hL : q.limit = 0)
    (hO : q.offset < (scanMatches um rm pt dir q).length) :
    (queryWithFileScan um rm pt dir q).entries = [] ∧
    (queryWithFileScan um rm pt dir q).total =
      (scanMatches um rm pt dir q).length := by
  refine ⟨?_, rfl⟩
  have h1 : ¬ (scanMatches um rm pt dir q).length ≤ q.offset :=
    not_le.mpr hO
  have h2 : ¬ (scanMatches um rm pt dir q).length < q.offset + q.limit := by
    omega
  simp only [queryWithFileScan]
  rw [if_neg h1, if_neg h2]
  simp [hL]

/-- **C10, witness.**  The all-defaults query on the one-record
directory: one match, empty page, total 1. -/
theorem c10_scan_zero_limit_empty_entries_witness :
    (queryWithFileScan demoUnmarshalT demoRegexMatch demoParseTime demoDirT
      demoEmptyQuery).entries = [] ∧
    (queryWithFileScan demoUnmarshalT demoRegexMatch demoParseTime demoDirT
      demoEmptyQuery).total =
      (scanMatches demoUnmarshalT demoRegexMatch demoParseTime demoDirT
        demoEmptyQuery).length :=
  c10_scan_zero_limit_empty_entries demoUnmarshalT demoRegexMatch
    demoParseTime demoDirT demoEmptyQuery rfl (by decide)

end Logz
